import Mathlib

/-!
Shallow embedding of the persistence layer of the `rdp_api` repository
(`src/rdp/crud/model.py` and `src/rdp/crud/crud.py`).

The relational store is modelled as lists of rows, one list per table
declared in `model.py`.  Committing a write enforces exactly the
constraints declared there: the foreign keys `City.location_id`,
`Value.value_type_id`, `Value.device_id`, and the unique constraint
`value_integrity` on the triple `(time, value_type_id, device_id)`.
A failed commit rolls the pending write back, leaving the store as it was.

Machine-level notes: row ids are `Nat`; `time` is `Int` (a unix stamp);
the float measurement payload is carried as an opaque `Int` — no claim
does arithmetic on it, values are only stored and retrieved.  Python
exceptions (`sqlalchemy.IntegrityError`, `NoResultFound`, `ValueError`,
and the `TypeError` raised by `"TYPE_%d" % None`) become the `DbError`
type, and each operation returns the persisted store next to an
`Except DbError` result, so that the store surviving a failed call is
observable.
-/

namespace Rdp

/-- Row of table `location` (`model.py`, class `Location`). -/
structure LocationRow where
  id : Nat
  name : String
deriving DecidableEq

/-- Row of table `city` (`model.py`, class `City`). -/
structure CityRow where
  id : Nat
  name : String
  location_id : Nat
deriving DecidableEq

/-- Row of table `device` (`model.py`, class `Device`). -/
structure DeviceRow where
  id : Nat
  name : String
  description : String
  city_id : Nat
deriving DecidableEq

/-- Row of table `value_type` (`model.py`, class `ValueType`). -/
structure ValueTypeRow where
  id : Nat
  type_name : String
  type_unit : String
deriving DecidableEq

/-- Row of table `value` (`model.py`, class `Value`), with the unique
constraint `value_integrity` on `(time, value_type_id, device_id)`. -/
structure ValueRow where
  id : Nat
  time : Int
  value : Int
  value_type_id : Nat
  device_id : Nat
deriving DecidableEq

/-- The relational store: one list of rows per table of `model.py`. -/
structure DB where
  locations : List LocationRow
  cities : List CityRow
  devices : List DeviceRow
  valueTypes : List ValueTypeRow
  values : List ValueRow
deriving DecidableEq

/-- Errors surfaced by the crud layer. -/
inductive ConstraintKind where
  | uniqueViolation
  | fkViolation
deriving DecidableEq

/-- The Python exceptions the crud layer can raise, as one sum type. -/
inductive DbError where
  | integrityError (k : ConstraintKind)
  | noResultFound (msg : String)
  | valueError (msg : String)
  | typeError
deriving DecidableEq

/-- Store-assigned id for a fresh row: SQLite's rowid rule, one more than
the largest id in the table. -/
def freshId (ids : List Nat) : Nat :=
  ids.foldr max 0 + 1

/-- Python truthiness of an optional string argument: `None` and `""` are
falsy. -/
def truthy : Option String → Bool
  | none => false
  | some s => !(s == "")

/-- The placeholder `"TYPE_%d" % id` of `add_or_update_value_type`. -/
def placeholderName (i : Nat) : String := "TYPE_" ++ toString i

/-- The placeholder `"UNIT_%d" % id` of `add_or_update_value_type`. -/
def placeholderUnit (i : Nat) : String := "UNIT_" ++ toString i

/-- The query `select(ValueType).where(ValueType.id == value_type_id)`
(first row, as harvested by `crud.py`'s loop).  A `None` id compiles to
`id IS NULL` and matches no row. -/
def selectValueType (db : DB) : Option Nat → Option ValueTypeRow
  | none => none
  | some i => db.valueTypes.find? (fun vt => vt.id == i)

/-- Resolution of one metadata field of `add_or_update_value_type`
(lines 44–51 of `crud.py`): a truthy supplied argument overwrites, an
already truthy current value is kept, otherwise the placeholder is
formatted — which raises `TypeError` when `value_type_id` is `None`. -/
def resolveField (supplied current : Option String) (value_type_id : Option Nat)
    (mk : Nat → String) : Except DbError String :=
  if truthy supplied then .ok (supplied.getD "")
  else if truthy current then .ok (current.getD "")
  else
    match value_type_id with
    | some i => .ok (mk i)
    | none => .error .typeError

/-- In-place update of a loaded `ValueType` row at commit. -/
def updateValueTypeRow (l : List ValueTypeRow) (row : ValueTypeRow) : List ValueTypeRow :=
  l.map (fun w => if w.id == row.id then row else w)

/-- `Crud.add_or_update_value_type` (`crud.py` lines 21–54): load the row
with the given id or start a new one, apply the name/unit rules, commit in
its own session, and return the committed row. -/
def add_or_update_value_type (db : DB) (value_type_id : Option Nat)
    (value_type_name value_type_unit : Option String) :
    DB × Except DbError ValueTypeRow :=
  let existing := selectValueType db value_type_id
  match resolveField value_type_name (existing.map (fun vt => vt.type_name))
      value_type_id placeholderName with
  | .error e => (db, .error e)
  | .ok nm =>
    match resolveField value_type_unit (existing.map (fun vt => vt.type_unit))
        value_type_id placeholderUnit with
    | .error e => (db, .error e)
    | .ok un =>
      match existing with
      | some vt =>
        let row : ValueTypeRow := ⟨vt.id, nm, un⟩
        ({ db with valueTypes := updateValueTypeRow db.valueTypes row }, .ok row)
      | none =>
        let newId :=
          match value_type_id with
          | some i => i
          | none => freshId (db.valueTypes.map (fun vt => vt.id))
        let row : ValueTypeRow := ⟨newId, nm, un⟩
        ({ db with valueTypes := db.valueTypes ++ [row] }, .ok row)

/-- Committing a pending `Value` row: the store enforces the declared
foreign keys and the `value_integrity` unique triple; on violation the
transaction is rolled back and `IntegrityError` raised. -/
def commitValue (db : DB) (row : ValueRow) : Except DbError DB :=
  if !(db.valueTypes.any (fun w => w.id == row.value_type_id)) then
    .error (.integrityError .fkViolation)
  else if !(db.devices.any (fun d => d.id == row.device_id)) then
    .error (.integrityError .fkViolation)
  else if db.values.any (fun v => v.time == row.time &&
      v.value_type_id == row.value_type_id && v.device_id == row.device_id) then
    .error (.integrityError .uniqueViolation)
  else
    .ok { db with values := db.values ++ [row] }

/-- `Crud.add_value` (`crud.py` lines 56–74): upsert the `ValueType`
(which commits in its own session), then insert the `Value` row and
commit; an `IntegrityError` on that second commit is re-raised, with the
upsert's commit already persisted. -/
def add_value (db : DB) (value_time : Int) (value_type : Nat) (value_value : Int)
    (device_id : Nat) : DB × Except DbError Unit :=
  match add_or_update_value_type db (some value_type) none none with
  | (db1, .error e) => (db1, .error e)
  | (db1, .ok db_type) =>
    let row : ValueRow :=
      ⟨freshId (db1.values.map (fun v => v.id)), value_time, value_value,
        db_type.id, device_id⟩
    match commitValue db1 row with
    | .ok db2 => (db2, .ok ())
    | .error e => (db1, .error e)

/-- Ascending-time comparison used by `ORDER BY value.time`. -/
def timeLE (a b : ValueRow) : Prop := a.time ≤ b.time

instance : DecidableRel timeLE := fun a b => Int.decLe a.time b.time

instance : IsTotal ValueRow timeLE := ⟨fun a b => Int.le_total a.time b.time⟩

instance : IsTrans ValueRow timeLE := ⟨fun _ _ _ hab hbc => le_trans hab hbc⟩

/-- `Crud.get_values` (`crud.py` lines 99–126): optional join-filter on the
value type id, optional inclusive lower and upper time bounds, result
ordered ascending by `time`. -/
def get_values (db : DB) (value_type_id : Option Nat) (startT endT : Option Int) :
    List ValueRow :=
  let rows := db.values
  let rows :=
    match value_type_id with
    | none => rows
    | some i =>
      rows.filter (fun v => db.valueTypes.any (fun w => v.value_type_id == w.id && w.id == i))
  let rows :=
    match startT with
    | none => rows
    | some s => rows.filter (fun v => decide (s ≤ v.time))
  let rows :=
    match endT with
    | none => rows
    | some e => rows.filter (fun v => decide (v.time ≤ e))
  rows.insertionSort timeLE

/-- `Crud.get_values_by_device` (`crud.py` lines 158–170): a supplied
`device_id` filters directly; otherwise a supplied `device_name` is
resolved to the first matching device (`NoResultFound` when none);
otherwise `ValueError`. -/
def get_values_by_device (db : DB) (device_id : Option Nat) (device_name : Option String) :
    Except DbError (List ValueRow) :=
  match device_id with
  | some d => .ok (db.values.filter (fun v => v.device_id == d))
  | none =>
    match device_name with
    | some n =>
      match db.devices.find? (fun dev => dev.name == n) with
      | none => .error (.noResultFound "Device not found")
      | some dev => .ok (db.values.filter (fun v => v.device_id == dev.id))
    | none => .error (.valueError "Either device_id or device_name must be provided")

/-- `Crud.create_city` (`crud.py` lines 180–186): insert a city row and
commit; the commit enforces the `location_id` foreign key, rolling back
on violation. -/
def create_city (db : DB) (name : String) (location_id : Nat) :
    DB × Except DbError CityRow :=
  let row : CityRow := ⟨freshId (db.cities.map (fun c => c.id)), name, location_id⟩
  if db.locations.any (fun l => l.id == location_id) then
    ({ db with cities := db.cities ++ [row] }, .ok row)
  else
    (db, .error (.integrityError .fkViolation))

/-- Number of `Value` rows carrying a given uniqueness triple. -/
def countTriple (db : DB) (t : Int) (vt d : Nat) : Nat :=
  (db.values.filter (fun v => v.time == t && v.value_type_id == vt && v.device_id == d)).length

/-- Invariants every store reachable through the crud layer satisfies:
no duplicate row entries, the `value_integrity` unique triple, the two
foreign keys of `value`, primary-key uniqueness of `value_type`, and the
non-emptiness of committed names/units (the upsert always writes a truthy
string or a non-empty placeholder). -/
def DB.wellFormed (db : DB) : Prop :=
  db.values.Nodup ∧
  (∀ v ∈ db.values, ∀ w ∈ db.values,
      v.time = w.time → v.value_type_id = w.value_type_id → v.device_id = w.device_id →
      v = w) ∧
  (∀ v ∈ db.values, ∃ w ∈ db.valueTypes, w.id = v.value_type_id) ∧
  (∀ v ∈ db.values, ∃ d ∈ db.devices, d.id = v.device_id) ∧
  (∀ w ∈ db.valueTypes, ∀ w2 ∈ db.valueTypes, w.id = w2.id → w = w2) ∧
  (∀ w ∈ db.valueTypes, w.type_name ≠ "" ∧ w.type_unit ≠ "")

/-- Spec-side filter predicate of `listValues` (spec §4.4): conjunction of
the supplied filters, `value_type_id == valueTypeId`, `time >= start`,
`time <= end`, an omitted filter unconstrained. -/
def specMatchesFilters (value_type_id : Option Nat) (startT endT : Option Int)
    (v : ValueRow) : Bool :=
  (match value_type_id with
   | none => true
   | some i => v.value_type_id == i) &&
  (match startT with
   | none => true
   | some s => decide (s ≤ v.time)) &&
  (match endT with
   | none => true
   | some e => decide (v.time ≤ e))

instance (db : DB) : Decidable db.wellFormed := by
  unfold DB.wellFormed
  exact inferInstance

/-- The empty store, as `Base.metadata.create_all` leaves a fresh database. -/
def dbEmpty : DB := ⟨[], [], [], [], []⟩

/-- A store holding one device and one measurement of type 5 at time 10. -/
def dbOne : DB :=
  ⟨[], [], [⟨1, "dev", "desc", 1⟩], [⟨5, "TYPE_5", "UNIT_5"⟩], [⟨1, 10, 7, 5, 1⟩]⟩

/-- A store with two devices where device 2 already reported type 5 at
time 10, while device 1 has not. -/
def dbTwoDev : DB :=
  ⟨[], [], [⟨1, "dev", "desc", 1⟩, ⟨2, "dev2", "desc", 1⟩],
   [⟨5, "TYPE_5", "UNIT_5"⟩], [⟨1, 10, 7, 5, 2⟩]⟩

/-- A store with one device and no measurements. -/
def dbDevOnly : DB := ⟨[], [], [⟨1, "dev", "desc", 1⟩], [], []⟩

/-- A store with measurements at times 50, 100, 150, 200, 250 (the fixture
of spec §8). -/
def dbFixture : DB :=
  ⟨[], [], [⟨1, "dev", "desc", 1⟩], [⟨5, "TYPE_5", "UNIT_5"⟩],
   [⟨1, 50, 1, 5, 1⟩, ⟨2, 250, 2, 5, 1⟩, ⟨3, 150, 3, 5, 1⟩, ⟨4, 100, 4, 5, 1⟩,
    ⟨5, 200, 5, 5, 1⟩]⟩

/-- A store with a value row but no device rows at all. -/
def dbNoDevices : DB := ⟨[], [], [], [⟨5, "TYPE_5", "UNIT_5"⟩], [⟨1, 10, 7, 5, 1⟩]⟩

/-- A store with one location (id 1). -/
def dbOneLocation : DB := ⟨[⟨1, "loc"⟩], [], [], [], []⟩

/-- Abbreviation for the name the upsert resolves when the id `i` is
supplied: what `resolveField` computes from the loaded row (or from a
fresh one when `vt?` is `none`). -/
def resolvedName (vt? : Option ValueTypeRow) (i : Nat) (n : Option String) : String :=
  if truthy n then n.getD ""
  else
    match vt? with
    | some vt => if vt.type_name == "" then placeholderName i else vt.type_name
    | none => placeholderName i

/-- Companion of `resolvedName` for the unit field. -/
def resolvedUnit (vt? : Option ValueTypeRow) (i : Nat) (u : Option String) : String :=
  if truthy u then u.getD ""
  else
    match vt? with
    | some vt => if vt.type_unit == "" then placeholderUnit i else vt.type_unit
    | none => placeholderUnit i

/-! ### Helper lemmas -/

theorem truthy_none_eq : truthy none = false := rfl

theorem truthy_some (s : String) : truthy (some s) = !(s == "") := rfl

theorem truthy_getD_ne {s : Option String} (h : truthy s = true) : s.getD "" ≠ "" := by
  cases s with
  | none => simp [truthy] at h
  | some t =>
    simp only [truthy, Bool.not_eq_true'] at h
    simpa [Option.getD] using h

theorem placeholderName_ne (i : Nat) : placeholderName i ≠ "" := by
  intro h
  have h2 : ("TYPE_" ++ toString i).length = ("" : String).length :=
    congrArg String.length h
  rw [String.length_append] at h2
  have h3 : ("TYPE_" : String).length = 5 := rfl
  have h4 : ("" : String).length = 0 := rfl
  omega

theorem placeholderUnit_ne (i : Nat) : placeholderUnit i ≠ "" := by
  intro h
  have h2 : ("UNIT_" ++ toString i).length = ("" : String).length :=
    congrArg String.length h
  rw [String.length_append] at h2
  have h3 : ("UNIT_" : String).length = 5 := rfl
  have h4 : ("" : String).length = 0 := rfl
  omega

theorem map_eq_self_of {α : Type _} {l : List α} {f : α → α}
    (h : ∀ x ∈ l, f x = x) : l.map f = l := by
  induction l with
  | nil => rfl
  | cons x xs ih =>
    simp only [List.map_cons, h x (by simp)]
    rw [ih (fun y hy => h y (by simp [hy]))]

theorem find?_update_eq {l : List ValueTypeRow} {row : ValueTypeRow}
    (h : (l.find? (fun w => w.id == row.id)).isSome = true) :
    (updateValueTypeRow l row).find? (fun w => w.id == row.id) = some row := by
  induction l with
  | nil => simp at h
  | cons w ws ih =>
    by_cases hw : w.id = row.id
    · have hcons : updateValueTypeRow (w :: ws) row = row :: updateValueTypeRow ws row := by
        simp [updateValueTypeRow, hw]
      rw [hcons, List.find?_cons_of_pos]
      simp
    · have hcons : updateValueTypeRow (w :: ws) row = w :: updateValueTypeRow ws row := by
        simp [updateValueTypeRow, hw]
      rw [hcons, List.find?_cons_of_neg _ (by simp [hw])]
      apply ih
      rw [List.find?_cons_of_neg _ (by simp [hw])] at h
      exact h

theorem find?_append_single {l : List ValueTypeRow} {p : ValueTypeRow → Bool}
    {a : ValueTypeRow} (h : l.find? p = none) (hp : p a = true) :
    (l ++ [a]).find? p = some a := by
  simp [List.find?_append, h, List.find?_cons, hp]

/-- Full characterization of the upsert when an id is supplied: it always
succeeds, keying on whether a row with that id exists. -/
theorem upsert_some_eq (db : DB) (i : Nat) (n u : Option String) :
    add_or_update_value_type db (some i) n u =
      match db.valueTypes.find? (fun w => w.id == i) with
      | some vt =>
        ({ db with valueTypes := updateValueTypeRow db.valueTypes ⟨vt.id, resolvedName (some vt) i n, resolvedUnit (some vt) i u⟩ },
         .ok (⟨vt.id, resolvedName (some vt) i n, resolvedUnit (some vt) i u⟩ : ValueTypeRow))
      | none =>
        ({ db with valueTypes := db.valueTypes ++ [⟨i, resolvedName none i n, resolvedUnit none i u⟩] },
         .ok (⟨i, resolvedName none i n, resolvedUnit none i u⟩ : ValueTypeRow)) := by
  unfold add_or_update_value_type selectValueType resolveField resolvedName resolvedUnit
  cases hf : db.valueTypes.find? (fun w => w.id == i) with
  | none =>
    simp only [hf, Option.map_none']
    by_cases hn : truthy n = true <;> by_cases hu : truthy u = true <;>
      simp [hn, hu, truthy_none_eq]
  | some vt =>
    simp only [hf, Option.map_some']
    by_cases hn : truthy n = true <;> by_cases hu : truthy u = true <;>
      by_cases hvn : vt.type_name = "" <;> by_cases hvu : vt.type_unit = "" <;>
        simp [hn, hu, hvn, hvu, truthy_some, truthy_none_eq, beq_iff_eq]

theorem resolvedName_truthy {n : Option String} (vt? : Option ValueTypeRow) (i : Nat)
    (h : truthy n = true) : resolvedName vt? i n = n.getD "" := by
  unfold resolvedName
  simp [h]

theorem resolvedUnit_truthy {u : Option String} (vt? : Option ValueTypeRow) (i : Nat)
    (h : truthy u = true) : resolvedUnit vt? i u = u.getD "" := by
  unfold resolvedUnit
  simp [h]

theorem resolvedName_ne_empty (vt? : Option ValueTypeRow) (i : Nat) (n : Option String) :
    resolvedName vt? i n ≠ "" := by
  unfold resolvedName
  by_cases hn : truthy n = true
  · simpa [hn] using truthy_getD_ne hn
  · cases vt? with
    | none => simpa [hn] using placeholderName_ne i
    | some vt =>
      by_cases hv : vt.type_name = ""
      · simpa [hn, hv] using placeholderName_ne i
      · simpa [hn, beq_eq_false_iff_ne.mpr hv] using hv

theorem resolvedUnit_ne_empty (vt? : Option ValueTypeRow) (i : Nat) (u : Option String) :
    resolvedUnit vt? i u ≠ "" := by
  unfold resolvedUnit
  by_cases hu : truthy u = true
  · simpa [hu] using truthy_getD_ne hu
  · cases vt? with
    | none => simpa [hu] using placeholderUnit_ne i
    | some vt =>
      by_cases hv : vt.type_unit = ""
      · simpa [hu, hv] using placeholderUnit_ne i
      · simpa [hu, beq_eq_false_iff_ne.mpr hv] using hv

theorem resolvedName_stable {row : ValueTypeRow} {i : Nat} {n : Option String}
    (hne : row.type_name ≠ "") (hcase : truthy n = true → row.type_name = n.getD "") :
    resolvedName (some row) i n = row.type_name := by
  unfold resolvedName
  by_cases hn : truthy n = true
  · simp [hn, hcase hn]
  · simp [hn, beq_eq_false_iff_ne.mpr hne]

theorem resolvedUnit_stable {row : ValueTypeRow} {i : Nat} {u : Option String}
    (hne : row.type_unit ≠ "") (hcase : truthy u = true → row.type_unit = u.getD "") :
    resolvedUnit (some row) i u = row.type_unit := by
  unfold resolvedUnit
  by_cases hu : truthy u = true
  · simp [hu, hcase hu]
  · simp [hu, beq_eq_false_iff_ne.mpr hne]

theorem update_append_of_fresh {l : List ValueTypeRow} {row : ValueTypeRow}
    (h : ∀ w ∈ l, w.id ≠ row.id) :
    updateValueTypeRow (l ++ [row]) row = l ++ [row] := by
  unfold updateValueTypeRow
  rw [List.map_append]
  congr 1
  · exact map_eq_self_of (fun w hw => by simp [h w hw])
  · simp

theorem update_update (l : List ValueTypeRow) (row : ValueTypeRow) :
    updateValueTypeRow (updateValueTypeRow l row) row = updateValueTypeRow l row := by
  unfold updateValueTypeRow
  rw [List.map_map]
  apply List.map_congr_left
  intro w _
  by_cases hw : w.id = row.id <;> simp [hw]

theorem filter_eq_singleton_of_unique {α : Type _} {l : List α} {p : α → Bool} {a : α}
    (hnd : l.Nodup) (ha : a ∈ l) (hpa : p a = true)
    (huniq : ∀ x ∈ l, p x = true → x = a) :
    l.filter p = [a] := by
  induction l with
  | nil => cases ha
  | cons x xs ih =>
    rcases List.nodup_cons.mp hnd with ⟨hx, hxs⟩
    by_cases hpx : p x = true
    · have hxa : x = a := huniq x (by simp) hpx
      subst hxa
      rw [List.filter_cons_of_pos hpx]
      have hnil : xs.filter p = [] := by
        rw [List.filter_eq_nil_iff]
        intro y hy hpy
        exact hx (huniq y (by simp [hy]) hpy ▸ hy)
      rw [hnil]
    · have hax : a ∈ xs := by
        rcases List.mem_cons.mp ha with h | h
        · exact absurd (h ▸ hpa) hpx
        · exact h
      rw [List.filter_cons_of_neg hpx]
      exact ih hxs hax (fun y hy hpy => huniq y (by simp [hy]) hpy)

/-- Shape of the upsert when an id is supplied: it succeeds, the returned
row carries that id and is present afterwards, and no other table is
touched. -/
theorem upsert_id_shape (db : DB) (i : Nat) (n u : Option String) :
    ∃ db1 row, add_or_update_value_type db (some i) n u = (db1, .ok row) ∧
      row.id = i ∧ row ∈ db1.valueTypes ∧
      db1.locations = db.locations ∧ db1.cities = db.cities ∧
      db1.devices = db.devices ∧ db1.values = db.values := by
  rw [upsert_some_eq]
  cases hf : db.valueTypes.find? (fun w => w.id == i) with
  | none =>
    refine ⟨_, _, rfl, rfl, ?_, rfl, rfl, rfl, rfl⟩
    simp
  | some vt =>
    have hvid : vt.id = i := by simpa using List.find?_some hf
    refine ⟨_, _, rfl, hvid, ?_, rfl, rfl, rfl, rfl⟩
    have hmem := List.mem_of_find?_eq_some hf
    unfold updateValueTypeRow
    exact List.mem_map.mpr ⟨vt, hmem, by simp⟩

/-- `add_value` when the referenced `ValueType` row already exists in a
store whose rows have unique ids and non-empty metadata: the upsert leaves
the store unchanged and everything reduces to the `Value` commit. -/
theorem add_value_existing_vt (db : DB) (t : Int) (vt : Nat) (v : Int) (d : Nat)
    (vt' : ValueTypeRow)
    (hfind : db.valueTypes.find? (fun w => w.id == vt) = some vt')
    (hidu : ∀ w ∈ db.valueTypes, ∀ w2 ∈ db.valueTypes, w.id = w2.id → w = w2)
    (hne : vt'.type_name ≠ "" ∧ vt'.type_unit ≠ "") :
    add_value db t vt v d =
      match commitValue db ⟨freshId (db.values.map (fun x => x.id)), t, v, vt'.id, d⟩ with
      | .ok db2 => (db2, .ok ())
      | .error e => (db, .error e) := by
  have hmem := List.mem_of_find?_eq_some hfind
  have hup0 := upsert_some_eq db vt none none
  rw [hfind] at hup0
  have hup : add_or_update_value_type db (some vt) none none =
      ({ db with valueTypes := updateValueTypeRow db.valueTypes ⟨vt'.id, resolvedName (some vt') vt none, resolvedUnit (some vt') vt none⟩ },
       .ok (⟨vt'.id, resolvedName (some vt') vt none, resolvedUnit (some vt') vt none⟩ : ValueTypeRow)) := hup0
  rw [resolvedName_stable hne.1 (fun h => by simp [truthy_none_eq] at h),
      resolvedUnit_stable hne.2 (fun h => by simp [truthy_none_eq] at h)] at hup
  have heta : (⟨vt'.id, vt'.type_name, vt'.type_unit⟩ : ValueTypeRow) = vt' := rfl
  rw [heta] at hup
  have hupdate : updateValueTypeRow db.valueTypes vt' = db.valueTypes := by
    unfold updateValueTypeRow
    apply map_eq_self_of
    intro x hx
    by_cases hxid : x.id = vt'.id
    · have hx' : x = vt' := hidu x hx vt' hmem hxid
      rw [hx']
      simp
    · simp [hxid]
  rw [hupdate] at hup
  have hdb : ({ db with valueTypes := db.valueTypes } : DB) = db := rfl
  rw [hdb] at hup
  unfold add_value
  rw [hup]

theorem find?_update_eq' {l : List ValueTypeRow} {row : ValueTypeRow} {i : Nat}
    (hid : row.id = i)
    (h : (l.find? (fun w => w.id == i)).isSome = true) :
    (updateValueTypeRow l row).find? (fun w => w.id == i) = some row := by
  subst hid
  exact find?_update_eq h

/-- Calling the upsert a second time with the same supplied id and the same
name/unit arguments returns the same row and leaves the store as the first
call left it. -/
theorem upsert_second_call_eq (db : DB) (i : Nat) (n u : Option String) :
    add_or_update_value_type (add_or_update_value_type db (some i) n u).1 (some i) n u =
      add_or_update_value_type db (some i) n u := by
  cases hf : db.valueTypes.find? (fun w => w.id == i) with
  | none =>
    have hfresh : ∀ w ∈ db.valueTypes, w.id ≠ i := by
      intro w hw
      simpa using List.find?_eq_none.mp hf w hw
    have h1 := upsert_some_eq db i n u
    rw [hf] at h1
    dsimp only at h1
    rw [h1]
    dsimp only
    have hfind1 : (db.valueTypes ++ [(⟨i, resolvedName none i n, resolvedUnit none i u⟩ : ValueTypeRow)]).find? (fun w => w.id == i) = some ⟨i, resolvedName none i n, resolvedUnit none i u⟩ :=
      find?_append_single hf (by simp)
    have h2 := upsert_some_eq ({ db with valueTypes := db.valueTypes ++ [⟨i, resolvedName none i n, resolvedUnit none i u⟩] } : DB) i n u
    dsimp only at h2
    rw [hfind1] at h2
    dsimp only at h2
    have hrn : resolvedName (some (⟨i, resolvedName none i n, resolvedUnit none i u⟩ : ValueTypeRow)) i n = resolvedName none i n :=
      resolvedName_stable (resolvedName_ne_empty none i n) (fun ht => resolvedName_truthy none i ht)
    have hru : resolvedUnit (some (⟨i, resolvedName none i n, resolvedUnit none i u⟩ : ValueTypeRow)) i u = resolvedUnit none i u :=
      resolvedUnit_stable (resolvedUnit_ne_empty none i u) (fun ht => resolvedUnit_truthy none i ht)
    rw [hrn, hru] at h2
    rw [update_append_of_fresh (fun w hw => hfresh w hw)] at h2
    rw [h2]
  | some vt =>
    have hvtid : vt.id = i := by simpa using List.find?_some hf
    have h1 := upsert_some_eq db i n u
    rw [hf] at h1
    dsimp only at h1
    rw [h1]
    dsimp only
    have hfind1 : (updateValueTypeRow db.valueTypes ⟨vt.id, resolvedName (some vt) i n, resolvedUnit (some vt) i u⟩).find? (fun w => w.id == i) = some ⟨vt.id, resolvedName (some vt) i n, resolvedUnit (some vt) i u⟩ :=
      find?_update_eq' hvtid (by rw [hf]; rfl)
    have h2 := upsert_some_eq ({ db with valueTypes := updateValueTypeRow db.valueTypes ⟨vt.id, resolvedName (some vt) i n, resolvedUnit (some vt) i u⟩ } : DB) i n u
    dsimp only at h2
    rw [hfind1] at h2
    dsimp only at h2
    have hrn : resolvedName (some (⟨vt.id, resolvedName (some vt) i n, resolvedUnit (some vt) i u⟩ : ValueTypeRow)) i n = resolvedName (some vt) i n :=
      resolvedName_stable (resolvedName_ne_empty (some vt) i n) (fun ht => resolvedName_truthy (some vt) i ht)
    have hru : resolvedUnit (some (⟨vt.id, resolvedName (some vt) i n, resolvedUnit (some vt) i u⟩ : ValueTypeRow)) i u = resolvedUnit (some vt) i u :=
      resolvedUnit_stable (resolvedUnit_ne_empty (some vt) i u) (fun ht => resolvedUnit_truthy (some vt) i ht)
    rw [hrn, hru] at h2
    rw [update_update] at h2
    rw [h2]

/-! ### Claim theorems -/

/-- C9: for every store and every `location_id` that references no existing
`Location` row, `createCity(name, location_id)` fails with
`ReferentialIntegrityError` and leaves the store unchanged — no `City` row
is inserted. -/
theorem createCity_missing_location (db : DB) (name : String) (lid : Nat)
    (h : ∀ loc ∈ db.locations, loc.id ≠ lid) :
    create_city db name lid = (db, .error (.integrityError .fkViolation)) := by
  unfold create_city
  have hany : db.locations.any (fun l => l.id == lid) = false := by
    rw [List.any_eq_false]
    intro loc hl
    simp [h loc hl]
  simp [hany]

theorem createCity_missing_location_witness :
    (∀ loc ∈ dbEmpty.locations, loc.id ≠ 3) ∧
    create_city dbEmpty "Graz" 3 = (dbEmpty, .error (.integrityError .fkViolation)) :=
  ⟨by decide, createCity_missing_location dbEmpty "Graz" 3 (by decide)⟩

/-- C10: when both `device_id` and `device_name` are supplied,
`getValuesByDevice` uses the id and ignores the name entirely — the result
is the `Value` rows with that `device_id` and no error is possible, whatever
the name. -/
theorem getValuesByDevice_id_precedence (db : DB) (d : Nat) (n : String) :
    get_values_by_device db (some d) (some n) =
      .ok (db.values.filter (fun v => v.device_id == d)) := rfl

/-- C7 counterexample: `upsertValueType` with id, name and unit all omitted
does not succeed — the placeholder formatting `"TYPE_%d" % None` raises
`TypeError` and no row is inserted, refuting "succeeds for every combination
of omitted/supplied name and unit". -/
theorem upsertValueType_no_id_cex :
    add_or_update_value_type dbEmpty none none none = (dbEmpty, .error .typeError) := rfl

/-- C7 amended: with `id` omitted, the upsert creates and returns a row
with a store-assigned id only when both `name` and `unit` are supplied
non-empty; when `name` is falsy (whatever the unit argument), or `name` is
truthy but `unit` is falsy, the placeholder formatting raises `TypeError`
and the store is unchanged. -/
theorem upsertValueType_no_id (db : DB) (n u : String) (n0 u0 u1 : Option String)
    (hn : n ≠ "") (hu : u ≠ "") (hn0 : truthy n0 = false) (hu1 : truthy u1 = false) :
    (add_or_update_value_type db none (some n) (some u) =
      ({ db with valueTypes := db.valueTypes ++ [⟨freshId (db.valueTypes.map (fun vt => vt.id)), n, u⟩] },
       .ok (⟨freshId (db.valueTypes.map (fun vt => vt.id)), n, u⟩ : ValueTypeRow))) ∧
    add_or_update_value_type db none n0 u0 = (db, .error .typeError) ∧
    add_or_update_value_type db none (some n) u1 = (db, .error .typeError) := by
  refine ⟨?_, ?_, ?_⟩ <;>
    unfold add_or_update_value_type selectValueType resolveField <;>
      simp [truthy_some, truthy_none_eq, hn, hu, hn0, hu1]

theorem upsertValueType_no_id_witness :
    ("Temp" : String) ≠ "" ∧ ("C" : String) ≠ "" ∧
    truthy none = false ∧ truthy (some "") = false ∧
    ((add_or_update_value_type dbEmpty none (some "Temp") (some "C") =
      ({ dbEmpty with valueTypes := dbEmpty.valueTypes ++ [⟨freshId (dbEmpty.valueTypes.map (fun vt => vt.id)), "Temp", "C"⟩] },
       .ok (⟨freshId (dbEmpty.valueTypes.map (fun vt => vt.id)), "Temp", "C"⟩ : ValueTypeRow))) ∧
     add_or_update_value_type dbEmpty none none (some "C") = (dbEmpty, .error .typeError) ∧
     add_or_update_value_type dbEmpty none (some "Temp") (some "") = (dbEmpty, .error .typeError)) :=
  ⟨by decide, by decide, by decide, by decide,
   upsertValueType_no_id dbEmpty "Temp" "C" none (some "C") (some "") (by decide) (by decide)
     (by decide) (by decide)⟩

/-- C8 counterexample: with both identifiers supplied and no device named
"ghost" in the store, `getValuesByDevice` does not fail with `NotFound`; it
returns the rows filtered by the id, refuting the unguarded "if
`deviceName` is supplied and no Device row has that name it fails with
`NotFound`". -/
theorem getValuesByDevice_precedence_cex :
    (∀ dev ∈ dbNoDevices.devices, dev.name ≠ "ghost") ∧
    get_values_by_device dbNoDevices (some 1) (some "ghost") =
      .ok [⟨1, 10, 7, 5, 1⟩] :=
  ⟨by decide, rfl⟩

/-- C8 amended: `getValuesByDevice` fails with `InvalidArgument`
(`ValueError`) when both identifiers are unset; when `deviceId` is unset
and `deviceName` matches no device it fails with `NotFound`
(`NoResultFound`); when `deviceId` is unset and the name resolves, the
result is the rows of the resolved device; and when `deviceId` is supplied
it filters by that id with the name ignored. -/
theorem getValuesByDevice_validation (db dbA dbB dbC : DB) (nA n2 : String) (d : Nat)
    (nm : Option String) (dev : DeviceRow)
    (hA : ∀ de ∈ dbA.devices, de.name ≠ nA)
    (hB : dbB.devices.find? (fun de => de.name == n2) = some dev) :
    get_values_by_device db none none =
      .error (.valueError "Either device_id or device_name must be provided") ∧
    get_values_by_device dbA none (some nA) = .error (.noResultFound "Device not found") ∧
    get_values_by_device dbB none (some n2) =
      .ok (dbB.values.filter (fun v => v.device_id == dev.id)) ∧
    get_values_by_device dbC (some d) nm =
      .ok (dbC.values.filter (fun v => v.device_id == d)) := by
  refine ⟨rfl, ?_, ?_, rfl⟩
  · have hf : dbA.devices.find? (fun de => de.name == nA) = none := by
      rw [List.find?_eq_none]
      intro de hde
      simp [hA de hde]
    simp [get_values_by_device, hf]
  · simp [get_values_by_device, hB]

theorem getValuesByDevice_validation_witness :
    (∀ de ∈ dbOne.devices, de.name ≠ "ghost") ∧
    dbOne.devices.find? (fun de => de.name == "dev") = some ⟨1, "dev", "desc", 1⟩ ∧
    (get_values_by_device dbEmpty none none =
      .error (.valueError "Either device_id or device_name must be provided") ∧
     get_values_by_device dbOne none (some "ghost") =
      .error (.noResultFound "Device not found") ∧
     get_values_by_device dbOne none (some "dev") =
      .ok (dbOne.values.filter (fun v => v.device_id == (⟨1, "dev", "desc", 1⟩ : DeviceRow).id)) ∧
     get_values_by_device dbOne (some 1) (some "ghost") =
      .ok (dbOne.values.filter (fun v => v.device_id == 1))) :=
  ⟨by decide, by decide,
   getValuesByDevice_validation dbEmpty dbOne dbOne dbOne "ghost" "dev" 1 (some "ghost")
     ⟨1, "dev", "desc", 1⟩ (by decide) (by decide)⟩

/-- C5: `upsertValueType` is idempotent under repeated identical input:
with name and unit omitted and a fresh id `i`, the call returns the
placeholder row `⟨i, TYPE_i, UNIT_i⟩`, the row is found in the store
afterwards, and a second identical call returns the very same result and
store; more generally, for any store and any name/unit arguments, a second
call with the same id and arguments leaves the store state unchanged. -/
theorem upsertValueType_idempotent (db db2 : DB) (i : Nat) (n u : Option String)
    (hfresh : ∀ w ∈ db.valueTypes, w.id ≠ i) :
    (add_or_update_value_type db (some i) none none).2 =
        .ok (⟨i, placeholderName i, placeholderUnit i⟩ : ValueTypeRow) ∧
    selectValueType (add_or_update_value_type db (some i) none none).1 (some i) =
        some (⟨i, placeholderName i, placeholderUnit i⟩ : ValueTypeRow) ∧
    add_or_update_value_type (add_or_update_value_type db (some i) none none).1
        (some i) none none = add_or_update_value_type db (some i) none none ∧
    (add_or_update_value_type (add_or_update_value_type db2 (some i) n u).1 (some i) n u).1 =
        (add_or_update_value_type db2 (some i) n u).1 := by
  have hfind : db.valueTypes.find? (fun w => w.id == i) = none := by
    rw [List.find?_eq_none]
    intro w hw
    simp [hfresh w hw]
  have h1 := upsert_some_eq db i none none
  rw [hfind] at h1
  dsimp only at h1
  have hrn : resolvedName none i none = placeholderName i := by
    simp [resolvedName, truthy_none_eq]
  have hru : resolvedUnit none i none = placeholderUnit i := by
    simp [resolvedUnit, truthy_none_eq]
  rw [hrn, hru] at h1
  refine ⟨by rw [h1], ?_, upsert_second_call_eq db i none none,
    congrArg Prod.fst (upsert_second_call_eq db2 i n u)⟩
  rw [h1]
  dsimp only [selectValueType]
  exact find?_append_single hfind (by simp)

theorem upsertValueType_idempotent_witness :
    (∀ w ∈ dbEmpty.valueTypes, w.id ≠ 7) ∧
    ((add_or_update_value_type dbEmpty (some 7) none none).2 =
        .ok (⟨7, placeholderName 7, placeholderUnit 7⟩ : ValueTypeRow) ∧
     selectValueType (add_or_update_value_type dbEmpty (some 7) none none).1 (some 7) =
        some (⟨7, placeholderName 7, placeholderUnit 7⟩ : ValueTypeRow) ∧
     add_or_update_value_type (add_or_update_value_type dbEmpty (some 7) none none).1
        (some 7) none none = add_or_update_value_type dbEmpty (some 7) none none ∧
     (add_or_update_value_type (add_or_update_value_type dbOne (some 7) (some "Temp") (some "C")).1
        (some 7) (some "Temp") (some "C")).1 =
        (add_or_update_value_type dbOne (some 7) (some "Temp") (some "C")).1) :=
  ⟨by decide,
   upsertValueType_idempotent dbEmpty dbOne 7 (some "Temp") (some "C") (by decide)⟩

/-- C6: partial upserts do not erase previously set fields: after
`upsertValueType(i, name=n)` followed by `upsertValueType(i, unit=u)` with
`n`, `u` non-empty, the `ValueType` row with id `i` has name `n` and unit
`u`. -/
theorem upsertValueType_partial_update (db : DB) (i : Nat) (n u : String)
    (hn : n ≠ "") (hu : u ≠ "") :
    selectValueType
      (add_or_update_value_type
        (add_or_update_value_type db (some i) (some n) none).1 (some i) none (some u)).1
      (some i) = some (⟨i, n, u⟩ : ValueTypeRow) := by
  have htn : truthy (some n) = true := by simp [truthy_some, hn]
  have htu : truthy (some u) = true := by simp [truthy_some, hu]
  cases hf : db.valueTypes.find? (fun w => w.id == i) with
  | none =>
    have h1 := upsert_some_eq db i (some n) none
    rw [hf] at h1
    dsimp only at h1
    have hrn : resolvedName none i (some n) = n := by
      rw [resolvedName_truthy _ _ htn]
      rfl
    have hru0 : resolvedUnit none i none = placeholderUnit i := by
      simp [resolvedUnit, truthy_none_eq]
    rw [hrn, hru0] at h1
    rw [h1]
    dsimp only
    have hfind1 : (db.valueTypes ++ [(⟨i, n, placeholderUnit i⟩ : ValueTypeRow)]).find? (fun w => w.id == i) = some ⟨i, n, placeholderUnit i⟩ :=
      find?_append_single hf (by simp)
    have h2 := upsert_some_eq ({ db with valueTypes := db.valueTypes ++ [⟨i, n, placeholderUnit i⟩] } : DB) i none (some u)
    dsimp only at h2
    rw [hfind1] at h2
    dsimp only at h2
    have hrn2 : resolvedName (some (⟨i, n, placeholderUnit i⟩ : ValueTypeRow)) i none = n :=
      resolvedName_stable hn (fun ht => absurd ht (by simp [truthy_none_eq]))
    have hru2 : resolvedUnit (some (⟨i, n, placeholderUnit i⟩ : ValueTypeRow)) i (some u) = u := by
      rw [resolvedUnit_truthy _ _ htu]
      rfl
    rw [hrn2, hru2] at h2
    rw [h2]
    dsimp only [selectValueType]
    exact find?_update_eq' rfl (by rw [hfind1]; rfl)
  | some vt =>
    have hvtid : vt.id = i := by simpa using List.find?_some hf
    have h1 := upsert_some_eq db i (some n) none
    rw [hf] at h1
    dsimp only at h1
    have hrn : resolvedName (some vt) i (some n) = n := by
      rw [resolvedName_truthy _ _ htn]
      rfl
    rw [hrn] at h1
    rw [h1]
    dsimp only
    have hfind1 : (updateValueTypeRow db.valueTypes ⟨vt.id, n, resolvedUnit (some vt) i none⟩).find? (fun w => w.id == i) = some ⟨vt.id, n, resolvedUnit (some vt) i none⟩ :=
      find?_update_eq' hvtid (by rw [hf]; rfl)
    have h2 := upsert_some_eq ({ db with valueTypes := updateValueTypeRow db.valueTypes ⟨vt.id, n, resolvedUnit (some vt) i none⟩ } : DB) i none (some u)
    dsimp only at h2
    rw [hfind1] at h2
    dsimp only at h2
    have hrn2 : resolvedName (some (⟨vt.id, n, resolvedUnit (some vt) i none⟩ : ValueTypeRow)) i none = n :=
      resolvedName_stable hn (fun ht => absurd ht (by simp [truthy_none_eq]))
    have hru2 : resolvedUnit (some (⟨vt.id, n, resolvedUnit (some vt) i none⟩ : ValueTypeRow)) i (some u) = u := by
      rw [resolvedUnit_truthy _ _ htu]
      rfl
    rw [hrn2, hru2] at h2
    rw [h2]
    dsimp only [selectValueType]
    have heq : (⟨i, n, u⟩ : ValueTypeRow) = ⟨vt.id, n, u⟩ := by rw [hvtid]
    rw [heq]
    exact find?_update_eq' hvtid (by rw [hfind1]; rfl)

theorem upsertValueType_partial_update_witness :
    ("Temp" : String) ≠ "" ∧ ("C" : String) ≠ "" ∧
    selectValueType
      (add_or_update_value_type
        (add_or_update_value_type dbOne (some 7) (some "Temp") none).1 (some 7) none (some "C")).1
      (some 7) = some (⟨7, "Temp", "C"⟩ : ValueTypeRow) :=
  ⟨by decide, by decide,
   upsertValueType_partial_update dbOne 7 "Temp" "C" (by decide) (by decide)⟩

/-- C1: if a `Value` row with the triple `(t, vt, d)` already exists in a
well-formed store, `addValue(t, vt, v, d)` fails with
`DuplicateMeasurement` (the store's uniqueness `IntegrityError`) and
afterwards exactly one `Value` row with that triple exists. -/
theorem addValue_duplicate_fails (db : DB) (t : Int) (vt : Nat) (v : Int) (d : Nat)
    (hwf : db.wellFormed)
    (hex : ∃ r ∈ db.values, r.time = t ∧ r.value_type_id = vt ∧ r.device_id = d) :
    (add_value db t vt v d).2 = .error (.integrityError .uniqueViolation) ∧
    countTriple (add_value db t vt v d).1 t vt d = 1 := by
  obtain ⟨r, hr, hrt, hrvt, hrd⟩ := hex
  obtain ⟨hnd, huniq, hfkv, hfkd, hvtu, hvtne⟩ := hwf
  obtain ⟨w, hw, hwid⟩ := hfkv r hr
  have hfindSome : (db.valueTypes.find? (fun x => x.id == vt)).isSome = true := by
    rw [List.find?_isSome]
    exact ⟨w, hw, by simp [hwid, hrvt]⟩
  obtain ⟨vt', hvt'⟩ := Option.isSome_iff_exists.mp hfindSome
  have hvt'mem := List.mem_of_find?_eq_some hvt'
  have hvt'id : vt'.id = vt := by simpa using List.find?_some hvt'
  have hav := add_value_existing_vt db t vt v d vt' hvt' hvtu (hvtne vt' hvt'mem)
  have hc1 : (db.valueTypes.any (fun w2 => w2.id == vt'.id)) = true := by
    rw [List.any_eq_true]
    exact ⟨vt', hvt'mem, by simp⟩
  have hc2 : (db.devices.any (fun dd => dd.id == d)) = true := by
    rw [List.any_eq_true]
    obtain ⟨dd, hdd, hddid⟩ := hfkd r hr
    exact ⟨dd, hdd, by simp [hddid, hrd]⟩
  have hc3 : db.values.any (fun x => x.time == t && x.value_type_id == vt'.id && x.device_id == d) = true := by
    rw [List.any_eq_true]
    exact ⟨r, hr, by simp [hrt, hrvt, hrd, hvt'id]⟩
  have hcommit : commitValue db ⟨freshId (db.values.map (fun x => x.id)), t, v, vt'.id, d⟩ = .error (.integrityError .uniqueViolation) := by
    unfold commitValue
    simp [hc1, hc2, hc3]
  rw [hav, hcommit]
  refine ⟨rfl, ?_⟩
  dsimp only
  unfold countTriple
  have hsingle : db.values.filter (fun x => x.time == t && x.value_type_id == vt && x.device_id == d) = [r] := by
    apply filter_eq_singleton_of_unique hnd hr (by simp [hrt, hrvt, hrd])
    intro x hx hpx
    simp only [Bool.and_eq_true, beq_iff_eq] at hpx
    obtain ⟨⟨hx1, hx2⟩, hx3⟩ := hpx
    exact huniq x hx r hr (by rw [hx1, hrt]) (by rw [hx2, hrvt]) (by rw [hx3, hrd])
  rw [hsingle]
  rfl

theorem addValue_duplicate_fails_witness :
    dbOne.wellFormed ∧
    (∃ r ∈ dbOne.values, r.time = 10 ∧ r.value_type_id = 5 ∧ r.device_id = 1) ∧
    ((add_value dbOne 10 5 9 1).2 = .error (.integrityError .uniqueViolation) ∧
     countTriple (add_value dbOne 10 5 9 1).1 10 5 1 = 1) :=
  ⟨by decide, by decide, addValue_duplicate_fails dbOne 10 5 9 1 (by decide) (by decide)⟩

/-- C2 counterexample: `addValue` is not atomic.  On the empty store,
`addValue(10, 5, 1, 3)` fails (device 3 does not exist), yet the store
afterwards differs from the store before: the `ValueType` row created by
the internal upsert stays committed. -/
theorem addValue_not_atomic_cex :
    (add_value dbEmpty 10 5 1 3).2 = .error (.integrityError .fkViolation) ∧
    (add_value dbEmpty 10 5 1 3).1 ≠ dbEmpty :=
  ⟨rfl, by decide⟩

/-- C2 amended: when `addValue` fails with `DuplicateMeasurement` (the
uniqueness violation) on a well-formed store, the store is left exactly as
it was before the call; atomicity does not hold for other failures, where
the separately committed upsert survives. -/
theorem addValue_duplicate_rollback (db : DB) (t : Int) (vt : Nat) (v : Int) (d : Nat)
    (hwf : db.wellFormed)
    (herr : (add_value db t vt v d).2 = .error (.integrityError .uniqueViolation)) :
    (add_value db t vt v d).1 = db := by
  obtain ⟨hnd, huniq, hfkv, hfkd, hvtu, hvtne⟩ := hwf
  cases hf : db.valueTypes.find? (fun w => w.id == vt) with
  | some vt' =>
    have hav := add_value_existing_vt db t vt v d vt' hf hvtu
      (hvtne vt' (List.mem_of_find?_eq_some hf))
    rw [hav] at herr ⊢
    cases hc : commitValue db ⟨freshId (db.values.map (fun x => x.id)), t, v, vt'.id, d⟩ with
    | ok db2 =>
      rw [hc] at herr
      simp at herr
    | error e => rfl
  | none =>
    exfalso
    have h1 := upsert_some_eq db vt none none
    rw [hf] at h1
    dsimp only at h1
    have hc3 : db.values.any (fun x => x.time == t && x.value_type_id == vt && x.device_id == d) = false := by
      rw [List.any_eq_false]
      intro x hx
      simp only [Bool.and_eq_true, beq_iff_eq]
      rintro ⟨⟨hx1, hx2⟩, hx3⟩
      obtain ⟨w, hw, hwid⟩ := hfkv x hx
      have hwvt : w.id = vt := by rw [hwid, hx2]
      have hnone := List.find?_eq_none.mp hf w hw
      simp [hwvt] at hnone
    have hc1 : ((db.valueTypes ++ [(⟨vt, resolvedName none vt none, resolvedUnit none vt none⟩ : ValueTypeRow)]).any (fun w => w.id == vt)) = true := by
      rw [List.any_eq_true]
      exact ⟨⟨vt, resolvedName none vt none, resolvedUnit none vt none⟩, by simp, by simp⟩
    unfold add_value at herr
    rw [h1] at herr
    dsimp only at herr
    cases hcv : commitValue ({ db with valueTypes := db.valueTypes ++ [⟨vt, resolvedName none vt none, resolvedUnit none vt none⟩] } : DB) ⟨freshId (db.values.map (fun x => x.id)), t, v, vt, d⟩ with
    | ok dbX =>
      rw [hcv] at herr
      simp at herr
    | error e =>
      rw [hcv] at herr
      simp only [Except.error.injEq] at herr
      subst herr
      unfold commitValue at hcv
      cases hb : db.devices.any (fun dd => dd.id == d) with
      | true => simp [hc1, hc3, hb] at hcv
      | false => simp [hc1, hb] at hcv

theorem addValue_duplicate_rollback_witness :
    dbOne.wellFormed ∧
    (add_value dbOne 10 5 9 1).2 = .error (.integrityError .uniqueViolation) ∧
    (add_value dbOne 10 5 9 1).1 = dbOne :=
  ⟨by decide, rfl, addValue_duplicate_rollback dbOne 10 5 9 1 (by decide) rfl⟩

/-- C3 counterexample: in `dbTwoDev` device 1 exists and no row with the
triple `(10, 5, 1)` exists — the claim's hypotheses hold — yet after
`addValue(10, 5, 9, 1)` succeeds, `listValues(5, 10, 10)` returns two
rows, because device 2 already has a reading of type 5 at time 10. -/
theorem addValue_listValues_cex :
    dbTwoDev.wellFormed ∧
    (∃ dev ∈ dbTwoDev.devices, dev.id = 1) ∧
    (∀ r ∈ dbTwoDev.values, ¬(r.time = 10 ∧ r.value_type_id = 5 ∧ r.device_id = 1)) ∧
    (add_value dbTwoDev 10 5 9 1).2 = .ok () ∧
    (get_values (add_value dbTwoDev 10 5 9 1).1 (some 5) (some 10) (some 10)).length = 2 :=
  ⟨by decide, by decide, by decide, rfl, rfl⟩

/-- C3 amended: if the device exists and no `Value` row with the pair
`(time, valueTypeId)` exists (for any device — one row with the same time
and type but a different device would also be returned), then `addValue`
succeeds and `listValues(valueTypeId, time, time)` returns exactly one
row whose time, value, type id and device id equal the inserted
arguments. -/
theorem addValue_then_listValues (db : DB) (t : Int) (vt : Nat) (v : Int) (d : Nat)
    (hdev : ∃ dev ∈ db.devices, dev.id = d)
    (hfresh : ∀ r ∈ db.values, ¬(r.time = t ∧ r.value_type_id = vt)) :
    (add_value db t vt v d).2 = .ok () ∧
    ∃ r : ValueRow, get_values (add_value db t vt v d).1 (some vt) (some t) (some t) = [r] ∧
      r.time = t ∧ r.value = v ∧ r.value_type_id = vt ∧ r.device_id = d := by
  obtain ⟨db1, row, hup, hrowid, hrowmem, hL, hC, hdev1, hval1⟩ := upsert_id_shape db vt none none
  have hc1 : db1.valueTypes.any (fun w => w.id == row.id) = true := by
    rw [List.any_eq_true]
    exact ⟨row, hrowmem, by simp⟩
  have hc2 : db1.devices.any (fun dd => dd.id == d) = true := by
    rw [List.any_eq_true]
    obtain ⟨dev, hdevmem, hdevid⟩ := hdev
    exact ⟨dev, by rw [hdev1]; exact hdevmem, by simp [hdevid]⟩
  have hc3 : db1.values.any (fun x => x.time == t && x.value_type_id == row.id && x.device_id == d) = false := by
    rw [List.any_eq_false]
    intro x hx
    rw [hval1] at hx
    simp only [Bool.and_eq_true, beq_iff_eq]
    rintro ⟨⟨hx1, hx2⟩, hx3⟩
    exact hfresh x hx ⟨hx1, by rw [hx2, hrowid]⟩
  have hcommit : commitValue db1 ⟨freshId (db1.values.map (fun x => x.id)), t, v, row.id, d⟩ =
      .ok ({ db1 with values := db1.values ++ [⟨freshId (db1.values.map (fun x => x.id)), t, v, row.id, d⟩] } : DB) := by
    unfold commitValue
    simp [hc1, hc2, hc3]
  unfold add_value
  rw [hup]
  dsimp only
  rw [hcommit]
  dsimp only
  refine ⟨rfl, ⟨⟨freshId (db1.values.map (fun x => x.id)), t, v, row.id, d⟩, ?_, rfl, rfl, hrowid, rfl⟩⟩
  unfold get_values
  dsimp only
  have hjrow : (db1.valueTypes.any (fun w => row.id == w.id && w.id == vt)) = true := by
    rw [List.any_eq_true]
    exact ⟨row, hrowmem, by simp [hrowid]⟩
  rw [List.filter_append, List.filter_append, List.filter_append]
  have hold : List.filter (fun x => decide (x.time ≤ t))
      (List.filter (fun x => decide (t ≤ x.time))
        (List.filter (fun x => db1.valueTypes.any (fun w => x.value_type_id == w.id && w.id == vt)) db1.values)) = [] := by
    rw [List.filter_eq_nil_iff]
    intro a ha hle
    simp only [List.mem_filter, List.any_eq_true, Bool.and_eq_true, beq_iff_eq,
      decide_eq_true_eq] at ha
    obtain ⟨⟨ha1, w2, hw2, hwa, hwvt⟩, ha3⟩ := ha
    simp only [decide_eq_true_eq] at hle
    exact hfresh a (hval1 ▸ ha1) ⟨le_antisymm hle ha3, by rw [hwa, hwvt]⟩
  have hnew : List.filter (fun x => decide (x.time ≤ t))
      (List.filter (fun x => decide (t ≤ x.time))
        (List.filter (fun x => db1.valueTypes.any (fun w => x.value_type_id == w.id && w.id == vt))
          [(⟨freshId (db1.values.map (fun x => x.id)), t, v, row.id, d⟩ : ValueRow)])) =
      [(⟨freshId (db1.values.map (fun x => x.id)), t, v, row.id, d⟩ : ValueRow)] := by
    simp [hjrow]
  rw [hold, hnew]
  simp [List.insertionSort, List.orderedInsert]

theorem addValue_then_listValues_witness :
    (∃ dev ∈ dbDevOnly.devices, dev.id = 1) ∧
    (∀ r ∈ dbDevOnly.values, ¬(r.time = 10 ∧ r.value_type_id = 5)) ∧
    ((add_value dbDevOnly 10 5 9 1).2 = .ok () ∧
     ∃ r : ValueRow, get_values (add_value dbDevOnly 10 5 9 1).1 (some 5) (some 10) (some 10) = [r] ∧
       r.time = 10 ∧ r.value = 9 ∧ r.value_type_id = 5 ∧ r.device_id = 1) :=
  ⟨by decide, by decide, addValue_then_listValues dbDevOnly 10 5 9 1 (by decide) (by decide)⟩

/-- C4: on a well-formed store, `listValues` returns exactly the `Value`
rows satisfying the conjunction of the supplied filters — type id when
given, inclusive lower and upper time bounds when given, an omitted filter
unconstrained — and the result is ordered ascending by time. -/
theorem getValues_filters_spec (db : DB) (vt? : Option Nat) (s? e? : Option Int)
    (hwf : db.wellFormed) :
    List.Perm (get_values db vt? s? e?) (db.values.filter (specMatchesFilters vt? s? e?)) ∧
    List.Sorted timeLE (get_values db vt? s? e?) := by
  have hfk : ∀ v ∈ db.values, ∃ w ∈ db.valueTypes, w.id = v.value_type_id := hwf.2.2.1
  have hjoin : ∀ (i : Nat) (x : ValueRow), x ∈ db.values →
      (db.valueTypes.any (fun w => x.value_type_id == w.id && w.id == i)) = (x.value_type_id == i) := by
    intro i x hx
    cases hvi : (x.value_type_id == i) with
    | true =>
      rw [List.any_eq_true]
      obtain ⟨w, hw, hwid⟩ := hfk x hx
      rw [beq_iff_eq] at hvi
      exact ⟨w, hw, by simp [hwid, hvi]⟩
    | false =>
      rw [List.any_eq_false]
      intro w hw
      simp only [Bool.and_eq_true, beq_iff_eq]
      rintro ⟨h1, h2⟩
      rw [beq_eq_false_iff_ne] at hvi
      exact hvi (by rw [h1, h2])
  have heq : get_values db vt? s? e? =
      (db.values.filter (specMatchesFilters vt? s? e?)).insertionSort timeLE := by
    unfold get_values specMatchesFilters
    cases vt? with
    | none =>
      cases s? <;> cases e? <;>
        simp [List.filter_filter, Bool.and_comm, Bool.and_left_comm, Bool.and_assoc]
    | some i =>
      have hjf : db.values.filter (fun x => db.valueTypes.any (fun w => x.value_type_id == w.id && w.id == i)) = db.values.filter (fun x => x.value_type_id == i) :=
        List.filter_congr (fun x hx => hjoin i x hx)
      cases s? <;> cases e? <;>
        (dsimp only; rw [hjf]; simp [List.filter_filter, Bool.and_comm, Bool.and_left_comm, Bool.and_assoc])
  constructor
  · rw [heq]
    exact List.perm_insertionSort timeLE _
  · rw [heq]
    exact List.sorted_insertionSort timeLE _

theorem getValues_filters_spec_witness :
    dbFixture.wellFormed ∧
    (List.Perm (get_values dbFixture none (some 100) (some 200))
      (dbFixture.values.filter (specMatchesFilters none (some 100) (some 200))) ∧
     List.Sorted timeLE (get_values dbFixture none (some 100) (some 200))) :=
  ⟨by decide, getValues_filters_spec dbFixture none (some 100) (some 200) (by decide)⟩

end Rdp
